import Mathlib

/-!
Shallow embedding of the tunnelr relay and agent (Go sources:
`cmd/server/main.go`, `internal/tunnel/registry.go`, `internal/tunnel/protocol.go`,
and the agent CLI). Go strings and byte slices are modelled as lists of
characters; maps are modelled as association lists whose update operation
overwrites the key, matching Go map-assignment semantics. Randomness
(`crypto/rand.Read`) and the wall clock (`time.Now().UnixNano()`) are modelled
as explicit inputs. Network and channel effects are modelled by explicit state
passing and, where ordering matters, by event traces.
-/

namespace Tunnelr

/-- Go strings (and opaque byte payloads) are modelled as lists of characters. -/
abbrev Str := List Char

/-- Converts a Lean string literal into the model's string type. -/
def str (s : String) : Str := s.data

/-! ## internal/tunnel/protocol.go -/

/-- HTTPRequest from `protocol.go` lines 42-48: the forwarded request payload.
Headers carry a single value per name, exactly as the Go struct
`map[string]string` does. -/
structure HTTPRequest where
  id : Str
  method : Str
  path : Str
  headers : List (Str × Str)
  body : Str

/-- HTTPResponse from `protocol.go` lines 51-56: what the agent sends back. -/
structure HTTPResponse where
  id : Str
  statusCode : Nat
  headers : List (Str × Str)
  body : Str

/-! ## internal/tunnel/registry.go -/

/-- Tunnel from `registry.go` lines 12-16. The live websocket connection is
abstracted to a numeric handle. -/
structure Tunnel where
  id : Str
  conn : Nat
  localPort : Int
deriving DecidableEq

/-- Registry from `registry.go` lines 20-25: the map from tunnel id to Tunnel,
modelled as an association list with unique keys (updates overwrite). -/
abbrev Registry := List (Str × Tunnel)

/-- The lowercase hex digit for a value below 16 (codepoint 48 is the digit
zero, codepoint 97 is the letter a), as `encoding/hex` renders nibbles. -/
def hexDigit (n : Nat) : Char :=
  if n < 10 then Char.ofNat (48 + n) else Char.ofNat (87 + n)

/-- Encoding of one byte as two lowercase hex characters
(`encoding/hex.EncodeToString`, byte-wise). -/
def byteToHex (b : Nat) : List Char :=
  [hexDigit (b % 256 / 16), hexDigit (b % 16)]

/-- generateID from `registry.go` lines 83-87: hex-encodes the 3 random bytes
read by `rand.Read`; the random bytes are an explicit input of the model. -/
def generateID (randomBytes : List Nat) : Str :=
  (randomBytes.map byteToHex).flatten

/-- Register from `registry.go` lines 36-52: generates an id from the random
bytes and inserts the new Tunnel under it (Go map assignment: any previous
entry under the same key is overwritten). Returns the id and the new registry.
The source performs no collision check before the insert. -/
def Registry.Register (reg : Registry) (randomBytes : List Nat) (conn : Nat)
    (localPort : Int) : Str × Registry :=
  let id := generateID randomBytes
  (id, (id, ⟨id, conn, localPort⟩) :: reg.filter (fun p => p.1 != id))

/-- Get from `registry.go` lines 56-63. -/
def Registry.Get (reg : Registry) (id : Str) : Option Tunnel :=
  (reg.find? (fun p => p.1 == id)).map (·.2)

/-- Remove from `registry.go` lines 66-71 (Go `delete`, idempotent). -/
def Registry.Remove (reg : Registry) (id : Str) : Registry :=
  reg.filter (fun p => p.1 != id)

/-- Count from `registry.go` lines 74-79. -/
def Registry.Count (reg : Registry) : Nat := reg.length

/-! ## cmd/server/main.go — pending-requests correlation table

`pendingRequests` (main.go lines 25-28) maps a request id to the buffered
channel awaiting that request's response. A channel is modelled as the list of
responses that have been sent into it, in order. -/

/-- Correlation table state: request id to channel contents. -/
abbrev Pending := List (Str × List HTTPResponse)

/-- Map lookup on the correlation table (`pendingRequests.m[id]`). -/
def Pending.lookup (t : Pending) (id : Str) : Option (List HTTPResponse) :=
  (t.find? (fun p => p.1 == id)).map (·.2)

/-- Await: main.go lines 300-304 — a fresh empty channel is published under
the request id (Go map assignment: an existing entry under the same key is
overwritten). -/
def Pending.await (t : Pending) (id : Str) : Pending :=
  (id, []) :: t.filter (fun p => p.1 != id)

/-- Resolve: main.go lines 175-181 — look the id up and, if a channel exists,
send the response into it (`ch <- &resp`); if no channel exists the response
is dropped and the table is unchanged. -/
def Pending.resolve (t : Pending) (id : Str) (r : HTTPResponse) : Pending :=
  match t.find? (fun p => p.1 == id) with
  | none => t
  | some _ => t.map (fun p => if p.1 = id then (p.1, p.2 ++ [r]) else p)

/-- Cancel: main.go lines 307-311 — the deferred `delete(pendingRequests.m,
requestID)` that runs when `forwardRequest` returns. -/
def Pending.cancel (t : Pending) (id : Str) : Pending :=
  t.filter (fun p => p.1 != id)

/-- What the serving context receives from its channel: the first response
sent into it, if any (main.go line 321, `case resp := <-respChan`; the select
executes at most one receive). -/
def Pending.waiterReceive (t : Pending) (id : Str) : Option HTTPResponse :=
  (Pending.lookup t id).bind List.head?

/-! ## cmd/server/main.go — request forwarding -/

/-- Status constant `http.StatusNotFound`. -/
def statusNotFound : Nat := 404

/-- Status constant `http.StatusInternalServerError`. -/
def statusInternalServerError : Nat := 500

/-- Status constant `http.StatusBadGateway`. -/
def statusBadGateway : Nat := 502

/-- Status constant `http.StatusGatewayTimeout`. -/
def statusGatewayTimeout : Nat := 504

/-- Request id generation, main.go line 268:
`fmt.Sprintf("%d", time.Now().UnixNano())`. The clock reading is an explicit
input; the id is its decimal rendering and depends on nothing else. -/
def genRequestID (nowUnixNano : Nat) : Str :=
  (toString nowUnixNano).data

/-- Wait window of `forwardRequest`, main.go line 329:
`time.After(30 * time.Second)`. -/
def forwardTimeoutSeconds : Nat := 30

/-- How one forwarded request ends (main.go lines 314-331): the send fails,
a response is delivered over the channel, or the 30-second timer fires. -/
inductive FwdOutcome where
  | delivered (resp : HTTPResponse)
  | timedOut
  | sendFailed

/-- Observable steps of `forwardRequest`, in program order. -/
inductive FwdOp where
  | insertSlot (id : Str)
  | sendRequest (id : Str)
  | recvResponse (id : Str)
  | fireTimeout (id : Str)
  | respondCaller (status : Nat)
  | deleteSlot (id : Str)

/-- Result of one `forwardRequest` run: the status written to the public
caller, the correlation table after the deferred delete, and the event trace. -/
structure FwdResult where
  callerStatus : Nat
  finalPending : Pending
  trace : List FwdOp

/-- forwardRequest from main.go lines 266-332, straight-line control flow:
generate the id (line 268), publish the channel (lines 300-304), register the
deferred delete (lines 307-311), write the REQUEST message (line 314; on error
respond 502 and return), then select on the channel versus the 30s timer
(lines 320-331). In the delivered case the agent's RESPONSE is resolved into
the table by `handleCLIResponses` and consumed by the select; the deferred
delete runs on every path. -/
def forwardRequest (pend : Pending) (nowUnixNano : Nat) (outcome : FwdOutcome) :
    FwdResult :=
  let requestID := genRequestID nowUnixNano
  let p1 := Pending.await pend requestID
  match outcome with
  | .sendFailed =>
      { callerStatus := statusBadGateway
        finalPending := Pending.cancel p1 requestID
        trace := [.insertSlot requestID, .sendRequest requestID,
                  .respondCaller statusBadGateway, .deleteSlot requestID] }
  | .delivered r =>
      { callerStatus := r.statusCode
        finalPending := Pending.cancel (Pending.resolve p1 requestID r) requestID
        trace := [.insertSlot requestID, .sendRequest requestID,
                  .recvResponse requestID, .respondCaller r.statusCode,
                  .deleteSlot requestID] }
  | .timedOut =>
      { callerStatus := statusGatewayTimeout
        finalPending := Pending.cancel p1 requestID
        trace := [.insertSlot requestID, .sendRequest requestID,
                  .fireTimeout requestID, .respondCaller statusGatewayTimeout,
                  .deleteSlot requestID] }

/-! ## cmd/server/main.go — connection handler -/

/-- One message read by the `handleCLIResponses` loop (main.go lines 152-183):
a well-formed http_response, a JSON parse failure (logged, loop continues), or
a message of another type (ignored). -/
inductive AgentMsg where
  | response (r : HTTPResponse)
  | malformed
  | otherType

/-- How the connection's read loop ends: a clean close or a read error. Both
make `conn.ReadMessage` return an error, ending the loop identically. -/
inductive ConnEnd where
  | cleanClose
  | readError

/-- handleCLIResponses from main.go lines 145-184: reads messages until the
connection ends, routing each http_response into the correlation table; the
deferred cleanup (lines 146-150) then removes the tunnel from the registry,
for clean closes and read errors alike. The registry is never touched inside
the loop. -/
def handleCLIResponses (tunnelID : Str) (msgs : List AgentMsg) (theEnd : ConnEnd)
    (reg : Registry) (pend : Pending) : Registry × Pending :=
  match msgs with
  | [] => (Registry.Remove reg tunnelID, pend)
  | .response r :: rest =>
      handleCLIResponses tunnelID rest theEnd reg (Pending.resolve pend r.id r)
  | .malformed :: rest => handleCLIResponses tunnelID rest theEnd reg pend
  | .otherType :: rest => handleCLIResponses tunnelID rest theEnd reg pend

/-! ## cmd/server/main.go — routing -/

/-- strings.SplitN(s, "/", 2) (main.go line 250), returned as the first
segment plus the optional remainder after the first slash. -/
def splitN2Slash : Str → Str × Option Str
  | [] => ([], none)
  | '/' :: rest => ([], some rest)
  | c :: rest =>
      match splitN2Slash rest with
      | (f, r) => (c :: f, r)

/-- extractFromPath from main.go lines 240-263: requires the "/t/" marker,
takes the next path segment as the tunnel id (empty segment yields none), and
the remainder — "/"-prefixed — as the forwarding path, defaulting to "/". -/
def extractFromPath (path : Str) : Str × Str :=
  match path with
  | '/' :: 't' :: '/' :: remaining =>
      match splitN2Slash remaining with
      | (first, rest) =>
          if first = [] then ([], [])
          else
            match rest with
            | none => (first, ['/'])
            | some r => (first, '/' :: r)
  | _ => ([], [])

/-- The path component of a request-target as Go's net/url parses it:
everything before the first question mark. `r.URL.Path` never contains the
query string; the query lives in `r.URL.RawQuery`. -/
def urlPathOf : Str → Str
  | [] => []
  | '?' :: _ => []
  | c :: rest => c :: urlPathOf rest

/-- Path-mode branch of handleRequest, main.go lines 191-193: the tunnel id
and forwarding path come from `extractFromPath(r.URL.Path)` — the parsed path
only, with the query string not reattached. -/
def handleRequestPathMode (target : Str) : Str × Str :=
  extractFromPath (urlPathOf target)

/-- How the agent's local HTTP call can go (agent source lines 179-209):
building the request fails, the local service is unreachable (`client.Do`
error), reading the response body fails, or the call succeeds with a status,
multi-valued headers (`http.Header` is `map[string][]string`), and a body. -/
inductive LocalOutcome where
  | createReqFailed
  | unreachable
  | readBodyFailed
  | success (statusCode : Nat) (headers : List (Str × List Str)) (body : Str)

/-- sendErrorResponse from the agent source lines 242-258: a synthesized
plain-text RESPONSE carrying the request's id. -/
def sendErrorResponse (reqID : Str) (statusCode : Nat) (message : String) :
    HTTPResponse :=
  { id := reqID
    statusCode := statusCode
    headers := [(str "Content-Type", str "text/plain")]
    body := message.data }

/-- Header conversion in processRequest, agent source lines 212-217: for each
name with a non-empty value list keep `values[0]` only; every later value is
dropped. -/
def convertRespHeaders (hs : List (Str × List Str)) : List (Str × Str) :=
  hs.filterMap (fun kv => kv.2.head?.map (fun v => (kv.1, v)))

/-- processRequest from the agent source lines 172-239: exactly one RESPONSE
is produced for the accepted REQUEST — 500 if building the local request or
reading its response body fails, 502 if the local service is unreachable, and
otherwise the local status, first-value-flattened headers, and body, always
under the request's own id. -/
def processRequest (req : HTTPRequest) (outcome : LocalOutcome) : HTTPResponse :=
  match outcome with
  | .createReqFailed => sendErrorResponse req.id 500 "Failed to create request"
  | .unreachable => sendErrorResponse req.id 502 "Failed to reach localhost"
  | .readBodyFailed => sendErrorResponse req.id 500 "Failed to read response"
  | .success statusCode headers body =>
      { id := req.id
        statusCode := statusCode
        headers := convertRespHeaders headers
        body := body }

/-- Association-list lookup on single-valued header maps. -/
def lookupHeader (hs : List (Str × Str)) (k : Str) : Option Str :=
  (hs.find? (fun p => p.1 == k)).map (·.2)

/-! ## General association-list lemmas -/

/-- Searching for a key after every entry with that key has been filtered out
finds nothing. -/
theorem find?_filter_ne {α : Type} (l : List (Str × α)) (k : Str) :
    (l.filter (fun p => p.1 != k)).find? (fun p => p.1 == k) = none := by
  rw [List.find?_eq_none]
  intro x hx
  have hne := (List.mem_filter.mp hx).2
  simpa [bne] using hne

/-- Filtering out an absent key leaves the list unchanged. -/
theorem filter_ne_of_find?_none {α : Type} (l : List (Str × α)) (k : Str)
    (h : l.find? (fun p => p.1 == k) = none) :
    l.filter (fun p => p.1 != k) = l := by
  rw [List.find?_eq_none] at h
  refine List.filter_eq_self.mpr ?_
  intro a ha
  simpa [bne] using h a ha

/-- With unique keys, filtering out a present key removes exactly one entry. -/
theorem length_filter_ne_add_one {α : Type} (l : List (Str × α)) (k : Str)
    (hnd : (l.map Prod.fst).Nodup) (h : l.find? (fun p => p.1 == k) ≠ none) :
    (l.filter (fun p => p.1 != k)).length + 1 = l.length := by
  induction l with
  | nil => simp at h
  | cons a l ih =>
    rw [List.filter_cons]
    by_cases ha : (a.1 == k) = true
    · have hak : a.1 = k := by simpa using ha
      have hnotin : a.1 ∉ l.map Prod.fst := (List.nodup_cons.mp hnd).1
      have hfilter : l.filter (fun p => p.1 != k) = l := by
        refine List.filter_eq_self.mpr ?_
        intro p hp
        have hpk : p.1 ≠ k := by
          intro hpk
          exact hnotin (hak ▸ hpk ▸ List.mem_map_of_mem Prod.fst hp)
        simpa [bne] using hpk
      rw [if_neg (by simp [bne, ha]), hfilter, List.length_cons]
    · have hfind : l.find? (fun p => p.1 == k) ≠ none := by
        rwa [List.find?_cons_of_neg _ (by simpa using ha)] at h
      have hrec := ih (List.nodup_cons.mp hnd).2 hfind
      rw [if_pos (by simp [bne, ha]), List.length_cons, List.length_cons]
      omega

/-! ## Correlation-table lemmas -/

/-- After the deferred delete, no slot for the request id remains. -/
theorem Pending.lookup_cancel (t : Pending) (id : Str) :
    Pending.lookup (Pending.cancel t id) id = none := by
  simp [Pending.lookup, Pending.cancel, find?_filter_ne]

/-- Resolving an id that has no slot leaves the table unchanged. -/
theorem Pending.resolve_of_lookup_none (t : Pending) (id : Str) (r : HTTPResponse)
    (h : Pending.lookup t id = none) : Pending.resolve t id r = t := by
  have hf : t.find? (fun p => p.1 == id) = none := by
    simpa [Pending.lookup, Option.map_eq_none'] using h
  unfold Pending.resolve
  rw [hf]

/-- A freshly awaited id has an empty channel. -/
theorem Pending.lookup_await_self (t : Pending) (id : Str) :
    Pending.lookup (Pending.await t id) id = some [] := by
  simp [Pending.lookup, Pending.await]

/-- Resolving a present id appends the response to that id's channel. -/
theorem Pending.lookup_resolve_self (t : Pending) (id : Str) (r : HTTPResponse)
    (buf : List HTTPResponse) (h : Pending.lookup t id = some buf) :
    Pending.lookup (Pending.resolve t id r) id = some (buf ++ [r]) := by
  unfold Pending.lookup at h
  cases hf : t.find? (fun p => p.1 == id) with
  | none => rw [hf] at h; simp at h
  | some p0 =>
    rw [hf] at h
    have hbuf : p0.2 = buf := by simpa using h
    have hkey : p0.1 = id := by simpa using List.find?_some hf
    have hcomp : ((fun p : Str × List HTTPResponse => p.1 == id) ∘
        (fun p => if p.1 = id then (p.1, p.2 ++ [r]) else p)) =
        (fun p : Str × List HTTPResponse => p.1 == id) := by
      funext p
      by_cases hp : p.1 = id <;> simp [hp]
    have hres : Pending.resolve t id r
        = t.map (fun p => if p.1 = id then (p.1, p.2 ++ [r]) else p) := by
      unfold Pending.resolve
      rw [hf]
    rw [hres]
    unfold Pending.lookup
    rw [List.find?_map, hcomp, hf]
    simp [hkey, hbuf]

/-! ## Registry and connection-handler lemmas -/

/-- A removed tunnel id is no longer found. -/
theorem Registry.Get_Remove (reg : Registry) (id : Str) :
    Registry.Get (Registry.Remove reg id) id = none := by
  simp [Registry.Get, Registry.Remove, find?_filter_ne]

/-- With unique ids, removing a registered tunnel shrinks the count by one. -/
theorem Registry.Count_Remove (reg : Registry) (id : Str)
    (hnd : (reg.map Prod.fst).Nodup) (h : Registry.Get reg id ≠ none) :
    Registry.Count (Registry.Remove reg id) + 1 = Registry.Count reg := by
  have hf : reg.find? (fun p => p.1 == id) ≠ none := by
    intro hc
    exact h (by simp [Registry.Get, hc])
  exact length_filter_ne_add_one reg id hnd hf

/-- The read loop never touches the registry; whatever messages arrive and
however the connection ends, the deferred cleanup leaves exactly the registry
with this tunnel removed. -/
theorem handleCLIResponses_fst (tunnelID : Str) (msgs : List AgentMsg)
    (theEnd : ConnEnd) (reg : Registry) (pend : Pending) :
    (handleCLIResponses tunnelID msgs theEnd reg pend).1
      = Registry.Remove reg tunnelID := by
  induction msgs generalizing pend with
  | nil => rfl
  | cons m rest ih =>
    cases m with
    | response r => exact ih _
    | malformed => exact ih _
    | otherType => exact ih _

/-! ## Claims -/

/-- C1: falsified by the code — `forwardRequest` derives the request id from
`time.Now().UnixNano()` alone, so two requests admitted at the same clock
reading get the same id, and the second `pendingRequests` insert overwrites
the first slot: the table holds a single slot for two in-flight requests, so
at most one caller can ever be matched to its own response. -/
theorem requestID_timestamp_collision :
    genRequestID 1700000000 = str "1700000000"
    ∧ (Pending.await (Pending.await [] (genRequestID 1700000000))
        (genRequestID 1700000000)).length = 1 := by decide

/-- C2 counterexample: with the colliding random draw `[0xa1, 0xb2, 0xc3]`,
the second `Register` call returns an identifier that was already present in
the registry before the call (the claim requires it absent), the first tunnel
is silently overwritten, and the count stays 1 although both registrations'
tunnels are live. -/
theorem register_collision_counterexample :
    Registry.Get (Registry.Register [] [161, 178, 195] 1 3000).2 (str "a1b2c3") ≠ none
    ∧ (Registry.Register (Registry.Register [] [161, 178, 195] 1 3000).2
        [161, 178, 195] 2 4000).1 = str "a1b2c3"
    ∧ Registry.Get (Registry.Register (Registry.Register [] [161, 178, 195] 1 3000).2
        [161, 178, 195] 2 4000).2 (str "a1b2c3") = some ⟨str "a1b2c3", 2, 4000⟩
    ∧ Registry.Count (Registry.Register (Registry.Register [] [161, 178, 195] 1 3000).2
        [161, 178, 195] 2 4000).2 = 1 := by decide

/-- C2 amended: whenever the randomly generated identifier does not collide
with a currently registered one, `Register` returns that identifier, it is
absent immediately before the call, afterwards it maps to the new tunnel,
and the count grows by one. The code performs no collision check, so this
holds only conditionally on the random draw. -/
theorem register_fresh (reg : Registry) (randomBytes : List Nat) (conn : Nat)
    (localPort : Int) (h : Registry.Get reg (generateID randomBytes) = none) :
    (Registry.Register reg randomBytes conn localPort).1 = generateID randomBytes
    ∧ Registry.Get (Registry.Register reg randomBytes conn localPort).2
        (generateID randomBytes) = some ⟨generateID randomBytes, conn, localPort⟩
    ∧ Registry.Count (Registry.Register reg randomBytes conn localPort).2
        = Registry.Count reg + 1 := by
  have hf : reg.find? (fun p => p.1 == generateID randomBytes) = none := by
    cases hc : reg.find? (fun p => p.1 == generateID randomBytes) with
    | none => rfl
    | some p =>
      unfold Registry.Get at h
      rw [hc] at h
      simp at h
  refine ⟨rfl, ?_, ?_⟩
  · show Registry.Get ((generateID randomBytes,
        ⟨generateID randomBytes, conn, localPort⟩)
        :: reg.filter (fun p => p.1 != generateID randomBytes))
        (generateID randomBytes) = some ⟨generateID randomBytes, conn, localPort⟩
    simp only [Registry.Get, List.find?_cons_of_pos, beq_self_eq_true,
      Option.map_some']
  · show Registry.Count ((generateID randomBytes,
        ⟨generateID randomBytes, conn, localPort⟩)
        :: reg.filter (fun p => p.1 != generateID randomBytes))
        = Registry.Count reg + 1
    unfold Registry.Count
    rw [List.length_cons, filter_ne_of_find?_none reg _ hf]

/-- C2 witness: registering the draw `[0xa1, 0xb2, 0xc3]` in the empty
registry. -/
theorem register_fresh_witness :
    (Registry.Register [] [161, 178, 195] 7 3000).1 = generateID [161, 178, 195]
    ∧ Registry.Get (Registry.Register [] [161, 178, 195] 7 3000).2
        (generateID [161, 178, 195]) = some ⟨generateID [161, 178, 195], 7, 3000⟩
    ∧ Registry.Count (Registry.Register [] [161, 178, 195] 7 3000).2
        = Registry.Count ([] : Registry) + 1 :=
  register_fresh [] [161, 178, 195] 7 3000 (by decide)

/-- C3: falsified by the code at the claimed input — in path mode
`handleRequest` extracts from `r.URL.Path`, which never contains the query
string, so `/t/abc123/foo?x=1` forwards path `/foo`, not `/foo?x=1`. The
other two parts of the claim hold: `/t/abc123` yields `abc123` with path `/`,
and a path without the `/t/` marker yields no identifier. -/
theorem pathMode_drops_query :
    handleRequestPathMode (str "/t/abc123/foo?x=1") = (str "abc123", str "/foo")
    ∧ str "/foo" ≠ str "/foo?x=1"
    ∧ handleRequestPathMode (str "/t/abc123") = (str "abc123", str "/")
    ∧ handleRequestPathMode (str "/webhook") = ([], []) := by decide

/-- C5: in every run of `forwardRequest` the slot is published first, the
REQUEST referencing the id is written strictly after it, the deferred delete
is the last step — after a response is consumed or the timeout fires,
whichever happened — and afterwards no slot for the id remains. -/
theorem slot_published_before_send (pend : Pending) (nowUnixNano : Nat)
    (outcome : FwdOutcome) :
    (forwardRequest pend nowUnixNano outcome).trace.head?
        = some (.insertSlot (genRequestID nowUnixNano))
    ∧ (forwardRequest pend nowUnixNano outcome).trace[1]?
        = some (.sendRequest (genRequestID nowUnixNano))
    ∧ (forwardRequest pend nowUnixNano outcome).trace.getLast?
        = some (.deleteSlot (genRequestID nowUnixNano))
    ∧ Pending.lookup (forwardRequest pend nowUnixNano outcome).finalPending
        (genRequestID nowUnixNano) = none := by
  cases outcome with
  | delivered r => exact ⟨rfl, rfl, rfl, Pending.lookup_cancel _ _⟩
  | timedOut => exact ⟨rfl, rfl, rfl, Pending.lookup_cancel _ _⟩
  | sendFailed => exact ⟨rfl, rfl, rfl, Pending.lookup_cancel _ _⟩

/-- C6: resolving the same request id twice delivers only the first response
to the waiting serving context, and resolving an id whose slot has been
removed (already cancelled, timed out, or never created) leaves the table
unchanged. -/
theorem resolve_at_most_once (pend : Pending) (id : Str) (r1 r2 : HTTPResponse) :
    Pending.waiterReceive
        (Pending.resolve (Pending.resolve (Pending.await pend id) id r1) id r2) id
      = some r1
    ∧ Pending.resolve (Pending.cancel pend id) id r2 = Pending.cancel pend id := by
  constructor
  · have h0 := Pending.lookup_await_self pend id
    have h1 := Pending.lookup_resolve_self (Pending.await pend id) id r1 [] h0
    have h2 := Pending.lookup_resolve_self _ id r2 ([] ++ [r1]) h1
    unfold Pending.waiterReceive
    rw [h2]
    rfl
  · exact Pending.resolve_of_lookup_none _ id r2 (Pending.lookup_cancel pend id)

/-- C7: when the agent never responds, the public caller receives the
gateway-timeout status (504) after the fixed 30-second wait window and the
correlation slot is gone immediately afterwards. -/
theorem timeout_gateway (pend : Pending) (nowUnixNano : Nat) :
    (forwardRequest pend nowUnixNano .timedOut).callerStatus = statusGatewayTimeout
    ∧ statusGatewayTimeout = 504
    ∧ forwardTimeoutSeconds = 30
    ∧ Pending.lookup (forwardRequest pend nowUnixNano .timedOut).finalPending
        (genRequestID nowUnixNano) = none :=
  ⟨rfl, rfl, rfl, Pending.lookup_cancel _ _⟩

/-- C8: after the tunnel connection ends — cleanly or by a read error,
whatever messages were processed — the tunnel is gone from the registry:
`Get` returns none and `Count` is one less than while the tunnel was live. -/
theorem tunnel_cleanup (tunnelID : Str) (msgs : List AgentMsg) (theEnd : ConnEnd)
    (reg : Registry) (pend : Pending)
    (hnd : (reg.map Prod.fst).Nodup) (hlive : Registry.Get reg tunnelID ≠ none) :
    Registry.Get (handleCLIResponses tunnelID msgs theEnd reg pend).1 tunnelID = none
    ∧ Registry.Count (handleCLIResponses tunnelID msgs theEnd reg pend).1 + 1
        = Registry.Count reg := by
  rw [handleCLIResponses_fst]
  exact ⟨Registry.Get_Remove reg tunnelID, Registry.Count_Remove reg tunnelID hnd hlive⟩

/-- C8 witness: a registry holding one tunnel whose connection dies by a read
error after one malformed message. -/
theorem tunnel_cleanup_witness :
    Registry.Get (handleCLIResponses (str "ab") [.malformed] .readError
        [(str "ab", ⟨str "ab", 0, 3000⟩)] []).1 (str "ab") = none
    ∧ Registry.Count (handleCLIResponses (str "ab") [.malformed] .readError
        [(str "ab", ⟨str "ab", 0, 3000⟩)] []).1 + 1
        = Registry.Count [(str "ab", ⟨str "ab", 0, 3000⟩)] :=
  tunnel_cleanup (str "ab") [.malformed] .readError
    [(str "ab", ⟨str "ab", 0, 3000⟩)] [] (by decide) (by decide)

/-- C9: every accepted REQUEST produces exactly one RESPONSE carrying the
request's own id — `processRequest` is total and its response always echoes
the id: 502 when the local service is unreachable, 500 on the other local
failures, and the local status/flattened headers/body on success. -/
theorem agent_always_responds (req : HTTPRequest) (outcome : LocalOutcome) :
    (processRequest req outcome).id = req.id
    ∧ (processRequest req .unreachable).statusCode = 502
    ∧ (processRequest req .createReqFailed).statusCode = 500
    ∧ (processRequest req .readBodyFailed).statusCode = 500
    ∧ ∀ sc hs b, processRequest req (.success sc hs b)
        = { id := req.id, statusCode := sc, headers := convertRespHeaders hs,
            body := b } := by
  refine ⟨?_, rfl, rfl, rfl, fun sc hs b => rfl⟩
  cases outcome <;> rfl

/-- C10: when the local service answers with several values for one header
name, the RESPONSE sent back keeps only the first value for that name and
drops the rest. -/
theorem response_headers_first_value (req : HTTPRequest) (sc : Nat) (b : Str)
    (k v : Str) (vs : List Str) (rest : List (Str × List Str)) :
    (processRequest req (.success sc ((k, v :: vs) :: rest) b)).headers
      = (k, v) :: convertRespHeaders rest
    ∧ lookupHeader (processRequest req (.success sc ((k, v :: vs) :: rest) b)).headers k
      = some v := by
  constructor
  · rfl
  · simp [lookupHeader, processRequest, convertRespHeaders]

end Tunnelr
